import Mathlib

/-!
Verification of the Celebeaty playback-synchronization system.

The definitions below are a shallow embedding of the JavaScript source:

  * the sender-side poll/emit decision (`tickDecision`, from the sender tick
    effect in `frontend/src/App.js`),
  * the receiver-side reconciliation handler (`recvApplyTrackPause`, from the
    `track`/`pause` branch of the WebSocket message handler in
    `frontend/src/App.js`),
  * device selection and play triggering (`selectDevice`,
    `ensurePlaybackAndPlay`, from `frontend/src/App.js`),
  * the backend token refresh-and-retry flow (`providerFlow`, from the
    `/whoami` and `/currently-playing` routes of the single-origin backend),
  * the presence directory (`applyPresence`, `liveList`, from the `presence`
    message branch and the `liveList` memo in `frontend/src/App.js`),
  * the follow graph (`followMsg`, `unfollowMsg`, from the `follow` and
    `unfollow` message branches in `frontend/src/App.js`),
  * the receiver event application of the room-based client
    (`applyRemoteEvent`, `handleSyncMessage`, from `Poll/Thresholds`),
  * the WebSocket origin check and upgrade handler (`isWsOriginAllowed`,
    `upgradeHandler`, from the single-origin backend), and
  * the broadcast hub / room relay (`hubRelayTargets`, `relayTargets`, from
    both backends).

Modelling conventions: JavaScript `x || y` on numbers is `jsOr` (only `0` is
falsy here), on strings `jsOrStr` (only the empty string is falsy); strings
that are merely compared are Lean `String`s; the origin check, which inspects
string prefixes, works on `List Char` (`String.data`); millisecond clock
values and playback positions are `Int`; user-visible hints are the `Hint`
enumeration naming which message the code would display.
-/

namespace Celebeaty

/-- JavaScript `a || b` for numbers: `a` is falsy exactly when it is `0`. -/
def jsOr (a b : Int) : Int := if a = 0 then b else a

/-- JavaScript `a || b` for strings: `a` is falsy exactly when it is empty. -/
def jsOrStr (a b : String) : String := if a = "" then b else a

/-- Whether a character list starts with the given pattern
(the model of JavaScript `String.prototype.startsWith`). -/
def startsWithL : List Char → List Char → Bool
  | _, [] => true
  | [], _ :: _ => false
  | a :: s, b :: p => a = b && startsWithL s p

/- ===== Sender-side poll/emit decision (frontend/src/App.js, sender tick) ===== -/

/-- Contents of `lastBroadcastRef.current`: the last emitted sync event. -/
structure LastBroadcast where
  trackId : String
  isPlaying : Bool
  progressMs : Int
  sentAt : Int
deriving DecidableEq, Repr

/-- One observation of the provider playback state inside a poll tick
(the `curr` object built from `/currently-playing`). -/
structure Observation where
  trackId : String
  isPlaying : Bool
  progressMs : Int
deriving DecidableEq, Repr

/-- Drift threshold of the sender tick (`const DRIFT_MS = 2000`). -/
def DRIFT_MS : Nat := 2000

/-- Expected position extrapolated from the last broadcast
(`prev.is_playing ? prev.progress_ms + (now - (prev.sentAt || now)) : prev.progress_ms`),
including the falsy fallback on `prev.sentAt`. -/
def expectedPosApp (prev : LastBroadcast) (now : Int) : Int :=
  if prev.isPlaying then prev.progressMs + (now - jsOr prev.sentAt now)
  else prev.progressMs

/-- Which branch of the sender tick fires for an observation.  `initial` is
the initial-snapshot send (`hasSentInitialRef` not yet set), the other
constructors mirror the comments in the source (`Trackwechsel`,
`Play/Pause-Wechsel`, `Seek-Detektion über Drift`); `noEmit` means the tick
broadcasts nothing. -/
inductive EmitKind
  | initial
  | trackChange
  | playPause
  | seek
  | noEmit
deriving DecidableEq, Repr

/-- The broadcast decision of one sender poll tick while sharing
(`frontend/src/App.js`, effect 5).  Mirrors the branch structure computing
`shouldBroadcast`/`eventType`, including the initial-snapshot send. -/
def tickDecision (hasSentInitial : Bool) (prev : LastBroadcast)
    (curr : Observation) (now : Int) : EmitKind :=
  if !hasSentInitial then .initial
  else if prev.trackId ≠ curr.trackId then .trackChange
  else if prev.isPlaying ≠ curr.isPlaying then .playPause
  else if DRIFT_MS < (curr.progressMs - expectedPosApp prev now).natAbs then .seek
  else .noEmit

/-- Whether the tick emits a sync event at all. -/
def tickEmits (hasSentInitial : Bool) (prev : LastBroadcast)
    (curr : Observation) (now : Int) : Bool :=
  tickDecision hasSentInitial prev curr now ≠ EmitKind.noEmit

/- ===== Receiver-side reconciliation (frontend/src/App.js, onmessage) ===== -/

/-- Fields of an incoming `track`/`pause` realtime message. -/
structure WsTrackEvent where
  type : String
  userId : String
  trackId : String
  progressMs : Int
  name : String
  artists : List String
  image : Option String
  ts : Int
  isPlaying : Bool
deriving DecidableEq, Repr

/-- The receiver's `recvNow` display/reconciliation object. -/
structure RecvNow where
  id : String
  name : String
  artists : List String
  image : Option String
  progressMs : Int
  leaderTs : Int
  isPlaying : Bool
deriving DecidableEq, Repr

/-- The spec's Reconciliation State: the projection of `recvNow` that drives
position extrapolation. -/
structure ReconState where
  trackId : String
  basePositionMs : Int
  baseTimestamp : Int
  isPlaying : Bool
deriving DecidableEq, Repr

/-- Projection of the receiver's local object to the Reconciliation State. -/
def reconOf : Option RecvNow → Option ReconState
  | none => none
  | some r => some { trackId := r.id, basePositionMs := r.progressMs,
                     baseTimestamp := r.leaderTs, isPlaying := r.isPlaying }

/-- The `track`/`pause` branch of `ws.current.onmessage` in
`frontend/src/App.js`, restricted to its effect on `recvNow`.  The event is
applied only when the receiver currently follows the event's user; the pause
branch spreads the previous object but overwrites every reconciliation-relevant
field, the play branch replaces the object wholesale. -/
def recvApplyTrackPause (followingUserId : Option String) (prev : Option RecvNow)
    (e : WsTrackEvent) (now : Int) : Option RecvNow :=
  if followingUserId = some e.userId then
    if e.type = "pause" ∨ e.isPlaying = false then
      some { id := e.trackId, name := jsOrStr e.name e.trackId, artists := e.artists,
             image := e.image, progressMs := jsOr e.progressMs 0,
             leaderTs := jsOr e.ts now, isPlaying := false }
    else
      some { id := e.trackId, name := jsOrStr e.name e.trackId, artists := e.artists,
             image := e.image, progressMs := jsOr e.progressMs 0,
             leaderTs := jsOr e.ts now, isPlaying := true }
  else prev

/- ===== Devices and provider commands ===== -/

/-- One entry of the provider device list. -/
structure Device where
  id : String
  isActive : Bool
  isRestricted : Bool
deriving DecidableEq, Repr

/-- Provider playback commands a receiver can issue.  `playResume` is a bare
resume without a position (a `play` request without a body); the source never
issues it, it exists so that absence of bare resumes is expressible. -/
inductive PCmd
  | transferPlayback (deviceId : String) (play : Bool)
  | playAt (trackId : String) (positionMs : Int)
  | playResume
  | pauseCmd
  | seekTo (positionMs : Int)
deriving DecidableEq, Repr

/-- Which user-visible hint the code sets (contents abstracted). -/
inductive Hint
  | noHint
  | noDeviceHint
  | noUsableDeviceHint
deriving DecidableEq, Repr

/-- Device selection
(`devices.find(d => d.is_active) || devices.find(d => !d.is_restricted) || devices[0]`). -/
def selectDevice (devices : List Device) : Option Device :=
  match devices.find? (fun d => d.isActive) with
  | some d => some d
  | none =>
    match devices.find? (fun d => !d.isRestricted) with
    | some d => some d
    | none => devices.head?

/-- Result of a receiver-side side-effecting handler: the provider commands
issued, in order, and the hint shown. -/
structure PlayOutcome where
  cmds : List PCmd
  hint : Hint
deriving DecidableEq, Repr

/-- The function `ensurePlaybackAndPlay` of `frontend/src/App.js`: query the
device list, select a device, transfer if it is not active, then play the
track at the latency-adjusted position. -/
def ensurePlaybackAndPlay (devices : List Device) (trackId : String)
    (leaderPositionMs leaderSentAt now : Int) : PlayOutcome :=
  if devices = [] then { cmds := [], hint := .noDeviceHint }
  else
    match selectDevice devices with
    | none => { cmds := [], hint := .noUsableDeviceHint }
    | some device =>
      if device.id = "" then { cmds := [], hint := .noUsableDeviceHint }
      else
        let pre : List PCmd :=
          if device.isActive then [] else [.transferPlayback device.id true]
        let desired : Int := max 0 (jsOr leaderPositionMs 0 + (now - jsOr leaderSentAt now))
        { cmds := pre ++ [.playAt trackId desired], hint := .noHint }

/- ===== Token lifecycle: 401 refresh-and-retry (backend routes) ===== -/

/-- The environment a single backend request runs against: the status code the
n-th provider GET of this request would return, and the status code of the
n-th refresh-token exchange of this request. -/
structure SpotifyEnv where
  getStatus : Nat → Nat
  refreshStatus : Nat → Nat

/-- What a request did: how many provider calls and refresh exchanges it
performed, and the status it surfaces to the caller on the error path. -/
structure FlowResult where
  providerCalls : Nat
  refreshCalls : Nat
  surfacedStatus : Nat
deriving DecidableEq, Repr

/-- The shared body of `/whoami` and `/currently-playing`: one provider GET;
if it returns 401 while the `sp_rt` refresh cookie is held, one refresh
exchange, and on a 200 refresh one retried GET whose status is surfaced
as-is.  `refreshOffset` counts refreshes already performed by
`withValidAccessToken`. -/
def providerRetryCore (hasRefreshCookie : Bool) (refreshOffset : Nat)
    (env : SpotifyEnv) : FlowResult :=
  let r0 := env.getStatus 0
  if r0 = 401 ∧ hasRefreshCookie then
    if env.refreshStatus refreshOffset = 200 then
      { providerCalls := 2, refreshCalls := refreshOffset + 1,
        surfacedStatus := env.getStatus 1 }
    else
      { providerCalls := 1, refreshCalls := refreshOffset + 1, surfacedStatus := r0 }
  else
    { providerCalls := 1, refreshCalls := refreshOffset, surfacedStatus := r0 }

/-- A backend route guarded by `withValidAccessToken`: with neither token the
request fails 401 immediately; with only the refresh cookie an eager refresh
runs first (its non-200 status surfaced); then the GET / 401-retry core. -/
def providerFlow (hasAccessToken hasRefreshCookie : Bool)
    (env : SpotifyEnv) : FlowResult :=
  if !hasAccessToken && !hasRefreshCookie then
    { providerCalls := 0, refreshCalls := 0, surfacedStatus := 401 }
  else if hasAccessToken then
    providerRetryCore hasRefreshCookie 0 env
  else if env.refreshStatus 0 = 200 then
    providerRetryCore hasRefreshCookie 1 env
  else
    { providerCalls := 0, refreshCalls := 1, surfacedStatus := env.refreshStatus 0 }

/- ===== Presence directory (frontend/src/App.js, presence branch + liveList) ===== -/

/-- One entry of the `liveMap` presence directory. -/
structure PresenceEntry where
  id : String
  name : String
  since : Int
  lastSeen : Int
  lastTrack : Option String
deriving DecidableEq, Repr

/-- The `presence` message actions. -/
inductive PresenceAction
  | start
  | stop
  | ping
deriving DecidableEq, Repr

/-- One incoming `presence` message together with the receiver-local clock
value used when the message timestamp is falsy (`data.ts || nowTs()`). -/
structure PresenceMsg where
  action : PresenceAction
  userId : String
  userName : String
  ts : Int
  localNow : Int
deriving DecidableEq, Repr

/-- The `presence` branch of `ws.current.onmessage`: `start` inserts or
overwrites the entry (keeping map position and `lastTrack`), `stop` deletes
it, `ping` updates `lastSeen` of an existing entry.  The `Map` is modelled as
a list in insertion order. -/
def applyPresence (m : List PresenceEntry) (msg : PresenceMsg) : List PresenceEntry :=
  match msg.action with
  | .start =>
    let seen := jsOr msg.ts msg.localNow
    if m.any (fun x => x.id == msg.userId) then
      m.map (fun x =>
        if x.id == msg.userId then
          { id := msg.userId, name := msg.userName, since := seen,
            lastSeen := seen, lastTrack := x.lastTrack }
        else x)
    else
      m ++ [{ id := msg.userId, name := msg.userName, since := seen,
              lastSeen := seen, lastTrack := none }]
  | .stop => m.filter (fun x => x.id != msg.userId)
  | .ping =>
    m.map (fun x =>
      if x.id == msg.userId then { x with lastSeen := jsOr msg.ts msg.localNow } else x)

/-- A sequence of presence operations applied in order to a directory. -/
def applyPresenceOps (ops : List PresenceMsg) (m : List PresenceEntry) : List PresenceEntry :=
  ops.foldl applyPresence m

/-- Liveness window of the lobby list (`const cutoff = Date.now() - 15000`). -/
def LIVENESS_WINDOW_MS : Int := 15000

/-- Sort key of the lobby list comparator (`(b.lastSeen || 0) - (a.lastSeen || 0)`). -/
def lastSeenSortKey (x : PresenceEntry) : Int := jsOr x.lastSeen 0

/-- Filter key of the lobby list (`x.lastSeen || x.since || 0`). -/
def lastSeenFilterKey (x : PresenceEntry) : Int := jsOr x.lastSeen (jsOr x.since 0)

/-- Insert into a list sorted by descending `lastSeenSortKey`. -/
def insertByLastSeenDesc (e : PresenceEntry) : List PresenceEntry → List PresenceEntry
  | [] => [e]
  | a :: t =>
    if lastSeenSortKey a < lastSeenSortKey e then e :: a :: t
    else a :: insertByLastSeenDesc e t

/-- Sorting by descending `lastSeenSortKey` (model of the JavaScript
`sort((a, b) => (b.lastSeen || 0) - (a.lastSeen || 0))`). -/
def sortByLastSeenDesc (l : List PresenceEntry) : List PresenceEntry :=
  l.foldr insertByLastSeenDesc []

/-- The `liveList` memo of `frontend/src/App.js`: entries of the directory
whose key beats the 15s cutoff, most recently seen first. -/
def liveList (m : List PresenceEntry) (now : Int) : List PresenceEntry :=
  sortByLastSeenDesc (m.filter (fun x => decide (now - LIVENESS_WINDOW_MS < lastSeenFilterKey x)))

/- ===== Follow graph (frontend/src/App.js, follow/unfollow branches) ===== -/

/-- One follower edge value stored in the inner map. -/
structure FollowEdge where
  id : String
  name : String
  ts : Int
deriving DecidableEq, Repr

/-- Inner follower map of one target, in insertion order. -/
abbrev Audience := List FollowEdge

/-- The `followers` state: `targetUserId -> Map<followerId, edge>`. -/
abbrev FollowerMap := List (String × Audience)

/-- JavaScript `copy.get(target) || new Map()`: the first entry with the
target's key, or the empty inner map. -/
def mapGetAudience : FollowerMap → String → Audience
  | [], _ => []
  | p :: rest, target => if p.1 == target then p.2 else mapGetAudience rest target

/-- JavaScript `copy.set(target, inner)`: replace in place or append. -/
def mapSetAudience (m : FollowerMap) (target : String) (aud : Audience) : FollowerMap :=
  if m.any (fun p => p.1 == target) then
    m.map (fun p => if p.1 == target then (target, aud) else p)
  else m ++ [(target, aud)]

/-- JavaScript `inner.set(followerId, edge)`: replace in place or append. -/
def audSet (aud : Audience) (e : FollowEdge) : Audience :=
  if aud.any (fun x => x.id == e.id) then
    aud.map (fun x => if x.id == e.id then e else x)
  else aud ++ [e]

/-- JavaScript `inner.delete(followerId)`. -/
def audDelete (aud : Audience) (fid : String) : Audience :=
  aud.filter (fun x => x.id != fid)

/-- The `follow` message branch: overwrite or append the follower edge in the
target's inner map. -/
def followMsg (m : FollowerMap) (target : String) (e : FollowEdge) : FollowerMap :=
  mapSetAudience m target (audSet (mapGetAudience m target) e)

/-- The `unfollow` message branch: delete the follower from the target's
inner map (writing the map back even when it was absent). -/
def unfollowMsg (m : FollowerMap) (target fid : String) : FollowerMap :=
  mapSetAudience m target (audDelete (mapGetAudience m target) fid)

/-- The audience of a target as the list of follower ids. -/
def audienceIds (m : FollowerMap) (target : String) : List String :=
  (mapGetAudience m target).map (fun e => e.id)

/- ===== Receiver event application of the room-based client (Poll/Thresholds) ===== -/

/-- Fields of an incoming `sync` message of the room-based client. -/
structure SyncMsg where
  trackId : String
  progressMs : Int
  isPlaying : Bool
  sentAt : Int
  isSeek : Bool
deriving DecidableEq, Repr

/-- Receiver state of the room-based client: `pausedTargetRef.current`
(track and clamped desired position recorded on pause) and the id of the
track `recvNow` currently shows. -/
structure RecvState where
  pausedTarget : Option (String × Int)
  recvNowId : Option String
deriving DecidableEq, Repr

/-- Result of applying one remote event in the room-based client. -/
structure ApplyOutcome where
  state : RecvState
  cmds : List PCmd
  hint : Hint
deriving DecidableEq, Repr

/-- The function `applyRemoteEvent` of `Poll/Thresholds`: device selection and
activation, then pause / pending-pause resume / track start / seek, mirroring
the source's early returns.  The `recvNow` it reads is the value captured
before this message updated it. -/
def applyRemoteEvent (st : RecvState) (devices : List Device) (trackId : String)
    (desiredPosMs : Int) (remoteIsPlaying : Bool) (isSeek : Bool) : ApplyOutcome :=
  if devices = [] then { state := st, cmds := [], hint := .noDeviceHint }
  else
    match selectDevice devices with
    | none => { state := st, cmds := [], hint := .noDeviceHint }
    | some device =>
      let pre : List PCmd :=
        if device.isActive then [] else [.transferPlayback device.id remoteIsPlaying]
      if remoteIsPlaying = false then
        { state := { st with pausedTarget := some (trackId, desiredPosMs) },
          cmds := pre ++ [.pauseCmd], hint := .noHint }
      else
        match st.pausedTarget with
        | some target =>
          { state := { st with pausedTarget := none },
            cmds := pre ++ [.playAt target.1 target.2], hint := .noHint }
        | none =>
          if st.recvNowId ≠ some trackId then
            { state := st, cmds := pre ++ [.playAt trackId (max 0 desiredPosMs)],
              hint := .noHint }
          else if isSeek then
            { state := st, cmds := pre ++ [.seekTo (max 0 desiredPosMs)],
              hint := .noHint }
          else { state := st, cmds := pre, hint := .noHint }

/-- The `sync`/`track` branch of `ws.current.onmessage` in `Poll/Thresholds`:
computes the clamped latency-adjusted position
(`Math.max(0, (progress_ms || 0) + (now - (sentAt || now)))`), calls
`applyRemoteEvent`, and records the message's track as the displayed one. -/
def handleSyncMessage (st : RecvState) (devices : List Device) (msg : SyncMsg)
    (now : Int) : ApplyOutcome :=
  let desiredPos := max 0 (jsOr msg.progressMs 0 + (now - jsOr msg.sentAt now))
  let out := applyRemoteEvent st devices msg.trackId desiredPos msg.isPlaying msg.isSeek
  { out with state := { out.state with recvNowId := some msg.trackId } }

/-- Positions carried by a command are non-negative. -/
def cmdPosNonneg : PCmd → Prop
  | .playAt _ p => 0 ≤ p
  | .seekTo p => 0 ≤ p
  | _ => True

/-- Invariant on the room-based receiver state: a recorded pause target
carries a non-negative position. -/
def pausedPosNonneg (st : RecvState) : Prop :=
  ∀ t p, st.pausedTarget = some (t, p) → 0 ≤ p

/- ===== WebSocket origin check and upgrade (single-origin backend) ===== -/

/-- The function `isWsOriginAllowed`: no `Origin` header, the server's own
origin, or an origin whose string starts with `http://localhost` or
`http://127.0.0.1` is allowed; the upgrade path consults no configured
allow-list. -/
def isWsOriginAllowed (origin : Option (List Char)) (selfOrigin : List Char) : Bool :=
  match origin with
  | none => true
  | some o =>
    o == selfOrigin || startsWithL o "http://localhost".data ||
      startsWithL o "http://127.0.0.1".data

/-- Outcome of a connection upgrade attempt: accepted, or the socket destroyed
with nothing sent back. -/
inductive UpgradeResult
  | accepted
  | destroyed
deriving DecidableEq, Repr

/-- The `server.on("upgrade")` handler: destroy unless the request path is
under `/ws` and the origin is allowed. -/
def upgradeHandler (url : List Char) (origin : Option (List Char))
    (selfOrigin : List Char) : UpgradeResult :=
  if !startsWithL url "/ws".data || !isWsOriginAllowed origin selfOrigin then .destroyed
  else .accepted

/-- Characters after the first `://` separator of an origin string. -/
def afterSchemeSep : List Char → List Char
  | [] => []
  | c :: rest =>
    if startsWithL (c :: rest) "://".data then rest.drop 2 else afterSchemeSep rest

/-- The host component: characters up to the first `:` or `/`. -/
def hostPart : List Char → List Char
  | [] => []
  | c :: rest => if c = ':' || c = '/' then [] else c :: hostPart rest

/-- Whether an origin's host component is a loopback host. -/
def isLoopbackHostOrigin (o : List Char) : Bool :=
  hostPart (afterSchemeSep o) == "localhost".data ||
    hostPart (afterSchemeSep o) == "127.0.0.1".data

/-- The explicit WebSocket allow-list of the upgrade path.  The upgrade
handler in the source consults no configured list (the `CORS_ORIGIN` list is
applied to HTTP routes only), so this list is empty. -/
def wsExplicitAllowList : List (List Char) := []

/-- Acceptance predicate worded as claim C8 states it (spec side of the
comparison): absent origin, same origin, loopback host, or an explicit
allow-list entry. -/
def claimedOriginAllowed (origin : Option (List Char)) (selfOrigin : List Char) : Bool :=
  match origin with
  | none => true
  | some o =>
    o == selfOrigin || isLoopbackHostOrigin o || wsExplicitAllowList.contains o

/- ===== Broadcast hub and room relay (backends) ===== -/

/-- One WebSocket connection: an identity and its `readyState`. -/
structure Conn where
  cid : Nat
  ready : Nat
deriving DecidableEq, Repr

/-- The value of `WebSocket.OPEN`. -/
def WS_OPEN : Nat := 1

/-- The flat hub of the single-origin backend: a parsed message from `sender`
is forwarded to every other open client
(`client !== ws && client.readyState === WebSocket.OPEN`). -/
def hubRelayTargets (clients : List Conn) (sender : Conn) : List Conn :=
  clients.filter (fun c => c != sender && c.ready == WS_OPEN)

/-- Room membership state of the room-based backend: `roomId -> Set(ws)`. -/
abbrev Rooms := List (String × List Conn)

/-- Members of a room (`rooms.get(roomId)`, empty when absent). -/
def roomMembers (rooms : Rooms) (roomId : String) : List Conn :=
  match rooms.find? (fun p => p.1 == roomId) with
  | some p => p.2
  | none => []

/-- The function `broadcastRoom(roomId, data, except)`: every open member of
the room other than `except`. -/
def broadcastRoomTargets (rooms : Rooms) (roomId : String) (excl : Conn) : List Conn :=
  (roomMembers rooms roomId).filter (fun c => c.ready == WS_OPEN && c != excl)

/-- The relay branch of the room-based backend's message handler: `sync`,
`track` and `snapshot_request` messages are forwarded to the sender's room
with the sender excluded; nothing is relayed verbatim otherwise. -/
def relayTargets (rooms : Rooms) (msgType : String) (senderRoom : Option String)
    (sender : Conn) : List Conn :=
  if msgType == "sync" || msgType == "track" || msgType == "snapshot_request" then
    match senderRoom with
    | some r => broadcastRoomTargets rooms r sender
    | none => []
  else []

/-- All entries of a directory carry a positive `lastSeen`. -/
def entriesPos (m : List PresenceEntry) : Prop := ∀ e ∈ m, 0 < e.lastSeen

/- ===================== Helper lemmas ===================== -/

theorem jsOr_zero_right (a : Int) : jsOr a 0 = a := by
  unfold jsOr; split <;> simp_all

theorem jsOr_of_ne_zero (a b : Int) (h : a ≠ 0) : jsOr a b = a := by
  simp [jsOr, h]

theorem jsOr_of_pos (a b : Int) (h : 0 < a) : jsOr a b = a :=
  jsOr_of_ne_zero a b (by omega)

theorem expectedPosApp_eq (prev : LastBroadcast) (now : Int) (h : prev.sentAt ≠ 0) :
    expectedPosApp prev now =
      prev.progressMs + (if prev.isPlaying then now - prev.sentAt else 0) := by
  unfold expectedPosApp
  rw [jsOr_of_ne_zero _ _ h]
  split <;> simp

/- ===================== Claim theorems ===================== -/

/-- Claim C1: while the sender is in the Sharing state, a poll tick emits a
sync event if and only if it is the first observation since entering Sharing,
or the observed track changed, or the observed play state changed, or the
observed position drifted from the extrapolated position
`lastEmitted.positionMs + (isPlaying ? now - lastEmitted.sentAt : 0)` by more
than the drift threshold (classified as a seek).  The iff is stated for a
last broadcast whose `sentAt` is non-zero — every recorded broadcast stores a
`Date.now()` millisecond timestamp, and at the falsy value `0` the code
substitutes `now` for `sentAt`.  With
`lastEmitted = (trackId A, positionMs 10000, sentAt T = 1000, isPlaying true)`
an observation at `T + 2000` with position 16000 (drift 4000) emits and is
classified as a seek, position 12500 (drift 500) does not emit, and a changed
track id emits regardless of drift. -/
theorem C1_sender_emit_iff :
    (∀ (hsi : Bool) (prev : LastBroadcast) (curr : Observation) (now : Int),
      prev.sentAt ≠ 0 →
      (tickEmits hsi prev curr now = true ↔
        (hsi = false ∨ prev.trackId ≠ curr.trackId ∨ prev.isPlaying ≠ curr.isPlaying ∨
          DRIFT_MS < (curr.progressMs -
            (prev.progressMs + (if prev.isPlaying then now - prev.sentAt else 0))).natAbs)))
    ∧ tickDecision true ⟨"A", true, 10000, 1000⟩ ⟨"A", true, 16000⟩ 3000 = EmitKind.seek
    ∧ tickDecision true ⟨"A", true, 10000, 1000⟩ ⟨"A", true, 12500⟩ 3000 = EmitKind.noEmit
    ∧ tickDecision true ⟨"A", true, 10000, 1000⟩ ⟨"B", true, 12500⟩ 3000 = EmitKind.trackChange
    ∧ tickDecision true ⟨"A", true, 10000, 1000⟩ ⟨"B", true, 16000⟩ 3000 = EmitKind.trackChange := by
  refine ⟨?_, by decide, by decide, by decide, by decide⟩
  intro hsi prev curr now hsa
  rw [show (prev.progressMs + (if prev.isPlaying then now - prev.sentAt else 0)) =
        expectedPosApp prev now from (expectedPosApp_eq prev now hsa).symm]
  unfold tickEmits tickDecision
  cases hsi <;> split_ifs <;> simp_all

/-- Witness for C1 at the concrete drift-4000 observation. -/
theorem C1_witness :
    tickEmits true ⟨"A", true, 10000, 1000⟩ ⟨"A", true, 16000⟩ 3000 = true :=
  (C1_sender_emit_iff.1 true ⟨"A", true, 10000, 1000⟩ ⟨"A", true, 16000⟩ 3000
      (by decide)).mpr
    (Or.inr (Or.inr (Or.inr (by decide))))

/-- Claim C2: processing a `track`/`pause` event for the currently followed
target replaces the Reconciliation State with exactly the event's fields
(track id, position, emitted-at timestamp, playing flag); no field of the
prior state is merged in, the result is independent of the prior state, and
processing the same event twice yields the same Reconciliation State. -/
theorem C2_recon_last_event_wins :
    ∀ (fid : Option String) (prev : Option RecvNow) (e : WsTrackEvent) (now : Int),
      fid = some e.userId →
      (e.type = "pause" ↔ e.isPlaying = false) →
      e.ts ≠ 0 →
      reconOf (recvApplyTrackPause fid prev e now) =
        some ⟨e.trackId, e.progressMs, e.ts, e.isPlaying⟩ ∧
      (∀ other : Option RecvNow,
        recvApplyTrackPause fid other e now = recvApplyTrackPause fid prev e now) ∧
      recvApplyTrackPause fid (recvApplyTrackPause fid prev e now) e now =
        recvApplyTrackPause fid prev e now := by
  intro fid prev e now hfid htype hts
  have hOr : jsOr e.ts now = e.ts := jsOr_of_ne_zero e.ts now hts
  have hP : jsOr e.progressMs 0 = e.progressMs := jsOr_zero_right e.progressMs
  unfold recvApplyTrackPause
  by_cases hpause : e.type = "pause" ∨ e.isPlaying = false
  · have hplay : e.isPlaying = false := by
      rcases hpause with h | h
      · exact htype.mp h
      · exact h
    simp [hfid, hpause, reconOf, hOr, hP, hplay]
  · have hplay : e.isPlaying = true := by
      rcases Bool.eq_false_or_eq_true e.isPlaying with h | h
      · exact h
      · exact absurd (Or.inr h) hpause
    have hnt : ¬ e.type = "pause" := fun h => hpause (Or.inl h)
    simp [hfid, hpause, hnt, reconOf, hOr, hP, hplay]

/-- Witness for C2 at a concrete playing event. -/
theorem C2_witness :
    reconOf (recvApplyTrackPause (some "u") none
        ⟨"track", "u", "A", 5000, "Song", [], none, 1000, true⟩ 2000) =
      some ⟨"A", 5000, 1000, true⟩ :=
  (C2_recon_last_event_wins (some "u") none
    ⟨"track", "u", "A", 5000, "Song", [], none, 1000, true⟩ 2000 rfl (by decide) (by decide)).1

/-- Claim C3: the receiver queries the device list before playing and selects
the currently active device if any, else the first non-restricted device,
else the first device; with an empty device list it surfaces the
no-playback-device hint and issues no playback call.  For the two devices
`(id 1, restricted)` and `(id 2, non-restricted)` device 2 is selected; for a
single already-active device 1 it is selected and no transfer command is
issued. -/
theorem C3_device_selection :
    (∀ (trackId : String) (lp ls now : Int),
      ensurePlaybackAndPlay [] trackId lp ls now = ⟨[], Hint.noDeviceHint⟩)
    ∧ (∀ devices : List Device, devices ≠ [] → (selectDevice devices).isSome)
    ∧ (∀ (devices : List Device) (d : Device), selectDevice devices = some d →
        d ∈ devices ∧
        (d.isActive = true ∨
          ((∀ a ∈ devices, a.isActive = false) ∧
            (d.isRestricted = false ∨ ∀ a ∈ devices, a.isRestricted = true))))
    ∧ selectDevice [⟨"1", false, true⟩, ⟨"2", false, false⟩] = some ⟨"2", false, false⟩
    ∧ selectDevice [⟨"1", true, false⟩] = some ⟨"1", true, false⟩
    ∧ (ensurePlaybackAndPlay [⟨"1", true, false⟩] "X" 0 0 0).cmds = [PCmd.playAt "X" 0] := by
  refine ⟨?_, ?_, ?_, by decide, by decide, by decide⟩
  · intro trackId lp ls now
    simp [ensurePlaybackAndPlay]
  · intro devices hne
    unfold selectDevice
    cases h1 : devices.find? (fun d => d.isActive) with
    | some d => simp
    | none =>
      cases h2 : devices.find? (fun d => !d.isRestricted) with
      | some d => simp
      | none =>
        cases devices with
        | nil => exact absurd rfl hne
        | cons a t => simp [List.head?]
  · intro devices d hsel
    unfold selectDevice at hsel
    cases h1 : devices.find? (fun d => d.isActive) with
    | some a =>
      rw [h1] at hsel
      cases hsel
      exact ⟨List.mem_of_find?_eq_some h1, Or.inl (by simpa using List.find?_some h1)⟩
    | none =>
      rw [h1] at hsel
      have hnoact : ∀ a ∈ devices, a.isActive = false := by
        intro a ha
        have := List.find?_eq_none.mp h1 a ha
        simpa using this
      cases h2 : devices.find? (fun d => !d.isRestricted) with
      | some b =>
        rw [h2] at hsel
        cases hsel
        refine ⟨List.mem_of_find?_eq_some h2, Or.inr ⟨hnoact, Or.inl ?_⟩⟩
        simpa using List.find?_some h2
      | none =>
        rw [h2] at hsel
        have hallres : ∀ a ∈ devices, a.isRestricted = true := by
          intro a ha
          have := List.find?_eq_none.mp h2 a ha
          simpa using this
        have hmem : d ∈ devices := by
          cases devices with
          | nil => simp [List.head?] at hsel
          | cons x t =>
            simp [List.head?] at hsel
            simp [hsel]
        exact ⟨hmem, Or.inr ⟨hnoact, Or.inr hallres⟩⟩

/-- Witness for C3: a nonempty device list yields a selected device. -/
theorem C3_witness : (selectDevice [⟨"2", false, false⟩]).isSome = true :=
  C3_device_selection.2.1 [⟨"2", false, false⟩] (by decide)

/-- Claim C4: when a provider call returns 401 while the refresh cookie is
held, the backend performs exactly one refresh exchange and one retried
provider call for that request, surfaces the retried call's status verbatim
(in particular a second 401), and never performs a second refresh or a third
provider call within the request. -/
theorem C4_single_refresh_retry :
    (∀ env : SpotifyEnv, env.getStatus 0 = 401 → env.refreshStatus 0 = 200 →
      (providerFlow true true env).refreshCalls = 1 ∧
      (providerFlow true true env).providerCalls = 2 ∧
      (providerFlow true true env).surfacedStatus = env.getStatus 1)
    ∧ (∀ (hasAT hasRT : Bool) (env : SpotifyEnv),
        (providerFlow hasAT hasRT env).providerCalls ≤ 2)
    ∧ (∀ env : SpotifyEnv, (providerFlow true true env).refreshCalls ≤ 1) := by
  refine ⟨?_, ?_, ?_⟩
  · intro env h0 hr
    simp [providerFlow, providerRetryCore, h0, hr]
  · intro hasAT hasRT env
    cases hasAT <;> cases hasRT <;>
      simp [providerFlow, providerRetryCore] <;> split_ifs <;> simp
  · intro env
    simp only [providerFlow, providerRetryCore]
    split_ifs <;> simp

/-- Witness for C4 at an environment answering 401 to every provider call and
200 to the refresh exchange. -/
theorem C4_witness :
    (providerFlow true true ⟨fun _ => 401, fun _ => 200⟩).refreshCalls = 1 ∧
    (providerFlow true true ⟨fun _ => 401, fun _ => 200⟩).surfacedStatus = 401 := by
  have h := C4_single_refresh_retry.1 ⟨fun _ => 401, fun _ => 200⟩ rfl rfl
  exact ⟨h.1, h.2.2⟩

theorem mem_insertByLastSeenDesc (e a : PresenceEntry) (l : List PresenceEntry) :
    a ∈ insertByLastSeenDesc e l ↔ a = e ∨ a ∈ l := by
  induction l with
  | nil => simp [insertByLastSeenDesc]
  | cons b t ih =>
    unfold insertByLastSeenDesc
    split_ifs with h
    · simp
    · simp [ih]
      tauto

theorem pairwise_insertByLastSeenDesc (e : PresenceEntry) (l : List PresenceEntry)
    (hl : l.Pairwise (fun x y => lastSeenSortKey y ≤ lastSeenSortKey x)) :
    (insertByLastSeenDesc e l).Pairwise (fun x y => lastSeenSortKey y ≤ lastSeenSortKey x) := by
  induction l with
  | nil => simp [insertByLastSeenDesc]
  | cons b t ih =>
    rw [List.pairwise_cons] at hl
    unfold insertByLastSeenDesc
    split_ifs with h
    · refine List.Pairwise.cons ?_ (List.Pairwise.cons hl.1 hl.2)
      intro x hx
      rcases List.mem_cons.mp hx with hx | hx
      · subst hx; omega
      · have := hl.1 x hx
        omega
    · refine List.Pairwise.cons ?_ (ih hl.2)
      intro x hx
      rcases (mem_insertByLastSeenDesc e x t).mp hx with hx | hx
      · subst hx; omega
      · exact hl.1 x hx

theorem mem_sortByLastSeenDesc (a : PresenceEntry) (l : List PresenceEntry) :
    a ∈ sortByLastSeenDesc l ↔ a ∈ l := by
  induction l with
  | nil => simp [sortByLastSeenDesc]
  | cons b t ih =>
    unfold sortByLastSeenDesc
    simp only [List.foldr_cons]
    rw [mem_insertByLastSeenDesc]
    unfold sortByLastSeenDesc at ih
    simp [ih]

theorem pairwise_sortByLastSeenDesc (l : List PresenceEntry) :
    (sortByLastSeenDesc l).Pairwise (fun x y => lastSeenSortKey y ≤ lastSeenSortKey x) := by
  induction l with
  | nil => simp [sortByLastSeenDesc]
  | cons b t ih =>
    unfold sortByLastSeenDesc
    simp only [List.foldr_cons]
    exact pairwise_insertByLastSeenDesc b _ ih

theorem applyPresence_pos (m : List PresenceEntry) (msg : PresenceMsg)
    (hm : entriesPos m) (ht : 0 < msg.ts) : entriesPos (applyPresence m msg) := by
  have hseen : jsOr msg.ts msg.localNow = msg.ts := jsOr_of_pos msg.ts msg.localNow ht
  intro e he
  unfold applyPresence at he
  cases hact : msg.action with
  | start =>
    rw [hact] at he
    simp only at he
    split_ifs at he with hany
    · rcases List.mem_map.mp he with ⟨x, hx, hxe⟩
      by_cases hid : x.id == msg.userId
      · rw [if_pos hid] at hxe
        subst hxe
        simpa [hseen] using ht
      · rw [if_neg hid] at hxe
        subst hxe
        exact hm x hx
    · rcases List.mem_append.mp he with hx | hx
      · exact hm e hx
      · simp at hx
        subst hx
        simpa [hseen] using ht
  | stop =>
    rw [hact] at he
    exact hm e (List.mem_of_mem_filter he)
  | ping =>
    rw [hact] at he
    rcases List.mem_map.mp he with ⟨x, hx, hxe⟩
    by_cases hid : x.id == msg.userId
    · rw [if_pos hid] at hxe
      subst hxe
      simpa [hseen] using ht
    · rw [if_neg hid] at hxe
      subst hxe
      exact hm x hx

theorem applyPresenceOps_pos (ops : List PresenceMsg) (m : List PresenceEntry)
    (hm : entriesPos m) (h : ∀ o ∈ ops, 0 < o.ts) :
    entriesPos (applyPresenceOps ops m) := by
  induction ops generalizing m with
  | nil => exact hm
  | cons o t ih =>
    unfold applyPresenceOps
    simp only [List.foldl_cons]
    exact ih (applyPresence m o) (applyPresence_pos m o hm (h o (by simp)))
      (fun x hx => h x (by simp [hx]))

/-- Claim C5: after any sequence of go-live / ping / go-offline presence
operations (with positive message timestamps), the lobby snapshot contains
exactly the directory entries whose `lastSeen` lies within the 15s liveness
window at query time — staleness is decided by the query-time cutoff, not a
background sweep — and is ordered most-recently-seen first. -/
theorem C5_presence_snapshot :
    ∀ (ops : List PresenceMsg) (now : Int),
      (∀ o ∈ ops, 0 < o.ts) →
      (∀ e, e ∈ liveList (applyPresenceOps ops []) now ↔
        e ∈ applyPresenceOps ops [] ∧ now - e.lastSeen < LIVENESS_WINDOW_MS) ∧
      (liveList (applyPresenceOps ops []) now).Pairwise
        (fun a b => b.lastSeen ≤ a.lastSeen) := by
  intro ops now hts
  have hpos : entriesPos (applyPresenceOps ops []) :=
    applyPresenceOps_pos ops [] (by intro e he; simp at he) hts
  constructor
  · intro e
    unfold liveList
    rw [mem_sortByLastSeenDesc, List.mem_filter]
    constructor
    · rintro ⟨hmem, hkey⟩
      have he : 0 < e.lastSeen := hpos e hmem
      refine ⟨hmem, ?_⟩
      have : now - LIVENESS_WINDOW_MS < lastSeenFilterKey e := by simpa using hkey
      rw [lastSeenFilterKey, jsOr_of_pos _ _ he] at this
      omega
    · rintro ⟨hmem, hwin⟩
      have he : 0 < e.lastSeen := hpos e hmem
      refine ⟨hmem, ?_⟩
      simp only [decide_eq_true_eq]
      rw [lastSeenFilterKey, jsOr_of_pos _ _ he]
      omega
  · have hsorted := pairwise_sortByLastSeenDesc
      ((applyPresenceOps ops []).filter (fun x => decide (now - LIVENESS_WINDOW_MS < lastSeenFilterKey x)))
    refine List.Pairwise.imp_of_mem ?_ hsorted
    intro a b ha hb hab
    have ha' : a ∈ applyPresenceOps ops [] := by
      have := (mem_sortByLastSeenDesc a _).mp ha
      exact List.mem_of_mem_filter this
    have hb' : b ∈ applyPresenceOps ops [] := by
      have := (mem_sortByLastSeenDesc b _).mp hb
      exact List.mem_of_mem_filter this
    have hpa : 0 < a.lastSeen := hpos a ha'
    have hpb : 0 < b.lastSeen := hpos b hb'
    rw [lastSeenSortKey, lastSeenSortKey, jsOr_of_pos _ _ hpa, jsOr_of_pos _ _ hpb] at hab
    exact hab

/-- Witness for C5 at a concrete go-live / ping sequence. -/
theorem C5_witness :
    (⟨"u", "U", 100, 200, none⟩ : PresenceEntry) ∈
      liveList (applyPresenceOps
        [⟨PresenceAction.start, "u", "U", 100, 100⟩,
         ⟨PresenceAction.ping, "u", "U", 200, 200⟩] []) 300 := by
  have h := C5_presence_snapshot
    [⟨PresenceAction.start, "u", "U", 100, 100⟩,
     ⟨PresenceAction.ping, "u", "U", 200, 200⟩] 300 (by decide)
  exact (h.1 ⟨"u", "U", 100, 200, none⟩).mpr ⟨by decide, by decide⟩

theorem selectDevice_isSome_of_ne_nil (devices : List Device) (hne : devices ≠ []) :
    (selectDevice devices).isSome := by
  unfold selectDevice
  cases h1 : devices.find? (fun d => d.isActive) with
  | some d => simp
  | none =>
    cases h2 : devices.find? (fun d => !d.isRestricted) with
    | some d => simp
    | none =>
      cases devices with
      | nil => exact absurd rfl hne
      | cons a t => simp [List.head?]

theorem applyRemoteEvent_no_bare_resume (st : RecvState) (devices : List Device)
    (trackId : String) (d : Int) (playing seek : Bool) :
    ((applyRemoteEvent st devices trackId d playing seek).cmds.all
      (fun c => c != PCmd.playResume)) = true := by
  unfold applyRemoteEvent
  by_cases h0 : devices = []
  · simp [h0]
  · cases hsel : selectDevice devices with
    | none => simp [h0, hsel]
    | some device =>
      rcases hpt : st.pausedTarget with _ | target <;>
      by_cases hact : device.isActive = true <;>
      by_cases hplay : playing = false <;>
      by_cases hid : st.recvNowId = some trackId <;>
      by_cases hseek : seek = true <;>
      simp [h0, hsel, hact, hplay, hpt, hid, hseek]

theorem applyRemoteEvent_cmds_nonneg (st : RecvState) (devices : List Device)
    (trackId : String) (d : Int) (playing seek : Bool)
    (hst : pausedPosNonneg st) :
    ∀ c ∈ (applyRemoteEvent st devices trackId d playing seek).cmds, cmdPosNonneg c := by
  unfold applyRemoteEvent
  by_cases h0 : devices = []
  · simp [h0]
  · cases hsel : selectDevice devices with
    | none => simp [h0, hsel]
    | some device =>
      rcases hpt : st.pausedTarget with _ | target
      · by_cases hact : device.isActive = true <;>
        by_cases hplay : playing = false <;>
        by_cases hid : st.recvNowId = some trackId <;>
        by_cases hseek : seek = true <;>
        simp [h0, hsel, hact, hplay, hpt, hid, hseek, cmdPosNonneg, le_sup_left, le_max_left]
      · have htpos : 0 ≤ target.2 := hst target.1 target.2 (by simpa using hpt)
        by_cases hact : device.isActive = true <;>
        by_cases hplay : playing = false <;>
        by_cases hid : st.recvNowId = some trackId <;>
        by_cases hseek : seek = true <;>
        simp [h0, hsel, hact, hplay, hpt, hid, hseek, cmdPosNonneg, le_sup_left, le_max_left,
          htpos]

theorem applyRemoteEvent_state_nonneg (st : RecvState) (devices : List Device)
    (trackId : String) (d : Int) (playing seek : Bool)
    (hst : pausedPosNonneg st) (hp : 0 ≤ d) :
    pausedPosNonneg (applyRemoteEvent st devices trackId d playing seek).state := by
  unfold applyRemoteEvent
  by_cases h0 : devices = []
  · simpa [h0] using hst
  · cases hsel : selectDevice devices with
    | none => simpa [h0, hsel] using hst
    | some device =>
      rcases hpt : st.pausedTarget with _ | target
      · by_cases hact : device.isActive = true <;>
        by_cases hplay : playing = false <;>
        by_cases hid : st.recvNowId = some trackId <;>
        by_cases hseek : seek = true <;>
        simp [h0, hsel, hact, hplay, hpt, hid, hseek, pausedPosNonneg, hp]
      · have htpos : 0 ≤ target.2 := hst target.1 target.2 (by simpa using hpt)
        by_cases hact : device.isActive = true <;>
        by_cases hplay : playing = false <;>
        by_cases hid : st.recvNowId = some trackId <;>
        by_cases hseek : seek = true <;>
        simp [h0, hsel, hact, hplay, hpt, hid, hseek, pausedPosNonneg, hp, htpos]

/-- Claim C6: a playing event that arrives while a pause is pending makes the
receiver issue a play command carrying the explicitly recorded position;
no branch of the receiver ever issues a bare position-less resume.  In the
concrete scenario, `pause(track A, position 5000)` followed by
`track(track A, position 5000, playing)` records the pause target and then
issues the position-explicit play at 5000. -/
theorem C6_pause_then_resume :
    (∀ (st : RecvState) (devices : List Device) (msg : SyncMsg) (now : Int)
        (tid : String) (pos : Int),
      devices ≠ [] → msg.isPlaying = true → st.pausedTarget = some (tid, pos) →
      PCmd.playAt tid pos ∈ (handleSyncMessage st devices msg now).cmds)
    ∧ (∀ (st : RecvState) (devices : List Device) (msg : SyncMsg) (now : Int),
        PCmd.playResume ∉ (handleSyncMessage st devices msg now).cmds)
    ∧ (handleSyncMessage ⟨none, some "A"⟩ [⟨"d1", true, false⟩]
        ⟨"A", 5000, false, 1000, false⟩ 1000).state.pausedTarget = some ("A", 5000)
    ∧ (handleSyncMessage ⟨some ("A", 5000), some "A"⟩ [⟨"d1", true, false⟩]
        ⟨"A", 5000, true, 1400, false⟩ 1400).cmds = [PCmd.playAt "A" 5000] := by
  refine ⟨?_, ?_, by decide, by decide⟩
  · intro st devices msg now tid pos hne hplay hpause
    unfold handleSyncMessage applyRemoteEvent
    cases hsel : selectDevice devices with
    | none =>
      have := selectDevice_isSome_of_ne_nil devices hne
      rw [hsel] at this
      simp at this
    | some device =>
      simp only [hne, if_neg (by simp [hne] : ¬ devices = [])]
      simp [hsel, hplay, hpause]
  · intro st devices msg now hmem
    have h := applyRemoteEvent_no_bare_resume st devices msg.trackId
      (max 0 (jsOr msg.progressMs 0 + (now - jsOr msg.sentAt now))) msg.isPlaying msg.isSeek
    have h2 := List.all_eq_true.mp h PCmd.playResume hmem
    simp at h2

/-- Witness for C6 at the concrete pending-pause resume. -/
theorem C6_witness :
    PCmd.playAt "A" 5000 ∈ (handleSyncMessage ⟨some ("A", 5000), some "A"⟩
      [⟨"d1", true, false⟩] ⟨"A", 5000, true, 1400, false⟩ 1400).cmds :=
  C6_pause_then_resume.1 ⟨some ("A", 5000), some "A"⟩ [⟨"d1", true, false⟩]
    ⟨"A", 5000, true, 1400, false⟩ 1400 "A" 5000 (by decide) rfl rfl

/-- Claim C10: every playback position the receiver hands to the provider in
a play or seek command is non-negative: the latency-adjusted position is
clamped with `max 0` at every call site, so a sender timestamp ahead of the
receiver's clock never produces a negative `position_ms`; the clamp also
holds for the positions recorded in a pending pause target. -/
theorem C10_positions_clamped :
    (∀ (st : RecvState) (devices : List Device) (msg : SyncMsg) (now : Int),
      pausedPosNonneg st →
      (∀ c ∈ (handleSyncMessage st devices msg now).cmds, cmdPosNonneg c) ∧
      pausedPosNonneg (handleSyncMessage st devices msg now).state)
    ∧ (∀ (devices : List Device) (trackId : String) (lp ls now : Int),
        ∀ c ∈ (ensurePlaybackAndPlay devices trackId lp ls now).cmds, cmdPosNonneg c) := by
  constructor
  · intro st devices msg now hst
    have hp : (0 : Int) ≤ max 0 (jsOr msg.progressMs 0 + (now - jsOr msg.sentAt now)) :=
      le_max_left 0 _
    constructor
    · intro c hc
      exact applyRemoteEvent_cmds_nonneg st devices msg.trackId
        (max 0 (jsOr msg.progressMs 0 + (now - jsOr msg.sentAt now)))
        msg.isPlaying msg.isSeek hst c hc
    · intro t p hmem
      exact applyRemoteEvent_state_nonneg st devices msg.trackId
        (max 0 (jsOr msg.progressMs 0 + (now - jsOr msg.sentAt now)))
        msg.isPlaying msg.isSeek hst hp t p hmem
  · intro devices trackId lp ls now c hc
    unfold ensurePlaybackAndPlay at hc
    by_cases h0 : devices = []
    · simp [h0] at hc
    · cases hsel : selectDevice devices with
      | none => simp [h0, hsel] at hc
      | some device =>
        by_cases hid : device.id = "" <;>
        by_cases hact : device.isActive = true <;>
        simp [h0, hsel, hid, hact] at hc <;>
        (try rcases hc with hc | hc) <;>
        (try subst hc) <;>
        simp [cmdPosNonneg, le_sup_left, le_max_left]

/-- Witness for C10: a sync event whose sender timestamp lies 3000ms ahead of
the receiver clock still yields a non-negative play position. -/
theorem C10_witness :
    cmdPosNonneg (PCmd.playAt "A" 0) :=
  (C10_positions_clamped.1 ⟨none, none⟩ [⟨"d", true, false⟩]
      ⟨"A", 1000, true, 5000, false⟩ 2000
      (by intro t p h; simp at h)).1
    (PCmd.playAt "A" 0) (by decide)

theorem mapGet_map_overwrite_self (m : FollowerMap) (t : String) (aud : Audience)
    (h : (m.any fun q => q.1 == t) = true) :
    mapGetAudience (m.map fun q => if q.1 == t then (t, aud) else q) t = aud := by
  induction m with
  | nil => simp at h
  | cons p rest ih =>
    rw [List.map_cons]
    by_cases hp : p.1 = t
    · rw [if_pos (by simpa using hp)]
      simp [mapGetAudience]
    · rw [if_neg (by simpa using hp)]
      simp only [mapGetAudience]
      rw [if_neg (by simpa using hp)]
      apply ih
      simp only [List.any_cons, Bool.or_eq_true] at h
      rcases h with h | h
      · exact absurd (by simpa using h) hp
      · exact h

theorem mapGet_append_self (m : FollowerMap) (t : String) (aud : Audience)
    (h : ∀ q ∈ m, ¬ q.1 = t) :
    mapGetAudience (m ++ [(t, aud)]) t = aud := by
  induction m with
  | nil => simp [mapGetAudience]
  | cons p rest ih =>
    rw [List.cons_append]
    simp only [mapGetAudience]
    rw [if_neg (by simpa using h p (by simp))]
    exact ih (fun q hq => h q (by simp [hq]))

theorem mapGet_mapSet_self (m : FollowerMap) (t : String) (aud : Audience) :
    mapGetAudience (mapSetAudience m t aud) t = aud := by
  unfold mapSetAudience
  split_ifs with h
  · exact mapGet_map_overwrite_self m t aud h
  · apply mapGet_append_self
    intro q hq
    rw [Bool.not_eq_true, List.any_eq_false] at h
    simpa using h q hq

theorem mapGet_map_overwrite_ne (m : FollowerMap) (t t' : String) (aud : Audience)
    (hne : t' ≠ t) :
    mapGetAudience (m.map fun q => if q.1 == t then (t, aud) else q) t' =
      mapGetAudience m t' := by
  induction m with
  | nil => simp [mapGetAudience]
  | cons p rest ih =>
    rw [List.map_cons]
    by_cases hp : p.1 = t
    · have h1 : ¬ t = t' := fun hx => hne hx.symm
      have h2 : ¬ p.1 = t' := by rw [hp]; exact h1
      rw [if_pos (by simpa using hp)]
      simp only [mapGetAudience]
      rw [if_neg (by simpa using h1), if_neg (by simpa using h2)]
      exact ih
    · rw [if_neg (by simpa using hp)]
      simp only [mapGetAudience]
      by_cases hq : p.1 = t'
      · rw [if_pos (by simpa using hq), if_pos (by simpa using hq)]
      · rw [if_neg (by simpa using hq), if_neg (by simpa using hq)]
        exact ih

theorem mapGet_append_ne (m : FollowerMap) (t t' : String) (aud : Audience)
    (hne : t' ≠ t) :
    mapGetAudience (m ++ [(t, aud)]) t' = mapGetAudience m t' := by
  induction m with
  | nil =>
    have h1 : ¬ t = t' := fun hx => hne hx.symm
    simp [mapGetAudience, h1]
  | cons p rest ih =>
    rw [List.cons_append]
    simp only [mapGetAudience]
    by_cases hq : p.1 = t'
    · rw [if_pos (by simpa using hq), if_pos (by simpa using hq)]
    · rw [if_neg (by simpa using hq), if_neg (by simpa using hq)]
      exact ih

theorem mapGet_mapSet_ne (m : FollowerMap) (t t' : String) (aud : Audience)
    (hne : t' ≠ t) :
    mapGetAudience (mapSetAudience m t aud) t' = mapGetAudience m t' := by
  unfold mapSetAudience
  split_ifs with h
  · exact mapGet_map_overwrite_ne m t t' aud hne
  · exact mapGet_append_ne m t t' aud hne

theorem map_id_audOverwrite (aud : Audience) (e : FollowEdge) :
    ((aud.map fun x => if x.id == e.id then e else x).map fun x => x.id) =
      aud.map fun x => x.id := by
  induction aud with
  | nil => simp
  | cons a rest ih =>
    simp only [List.map_cons]
    by_cases ha : a.id = e.id
    · rw [if_pos (by simpa using ha)]
      rw [ih, ha]
    · rw [if_neg (by simpa using ha)]
      rw [ih]

theorem audSet_map_id_of_mem (aud : Audience) (e : FollowEdge)
    (h : e.id ∈ aud.map fun x => x.id) :
    ((audSet aud e).map fun x => x.id) = aud.map fun x => x.id := by
  unfold audSet
  have hany : (aud.any fun x => x.id == e.id) = true := by
    rcases List.mem_map.mp h with ⟨x, hx, hxe⟩
    exact List.any_eq_true.mpr ⟨x, hx, by simp [hxe]⟩
  rw [if_pos hany]
  exact map_id_audOverwrite aud e

theorem audSet_of_not_mem (aud : Audience) (e : FollowEdge)
    (h : e.id ∉ aud.map fun x => x.id) :
    audSet aud e = aud ++ [e] := by
  unfold audSet
  rw [if_neg ?_]
  rw [Bool.not_eq_true, List.any_eq_false]
  intro x hx
  simp only [beq_iff_eq]
  intro hxe
  exact h (List.mem_map.mpr ⟨x, hx, hxe⟩)

theorem audDelete_append (aud : Audience) (e : FollowEdge)
    (h : e.id ∉ aud.map (fun x => x.id)) :
    audDelete (aud ++ [e]) e.id = aud := by
  unfold audDelete
  rw [List.filter_append]
  have h1 : List.filter (fun x => x.id != e.id) [e] = [] := by simp
  have h2 : List.filter (fun x => x.id != e.id) aud = aud := by
    rw [List.filter_eq_self]
    intro x hx
    simp only [bne_iff_ne, ne_eq]
    intro hxe
    exact h (List.mem_map.mpr ⟨x, hx, hxe⟩)
  rw [h1, h2, List.append_nil]

/-- Claim C7 as stated is false on the code: when the follower already
follows the target, performing follow then unfollow removes the follower, so
the audience set is not restored.  Concretely, starting from the map where
`f` already follows `t`, the round trip empties the audience of `t`. -/
theorem C7_roundtrip_counterexample :
    ¬ (∀ x : String,
        x ∈ audienceIds (unfollowMsg (followMsg (followMsg [] "t" ⟨"f", "F", 1⟩) "t"
            ⟨"f", "F", 2⟩) "t" "f") "t" ↔
          x ∈ audienceIds (followMsg [] "t" ⟨"f", "F", 1⟩) "t") := by
  intro h
  have h1 : "f" ∈ audienceIds (followMsg [] "t" ⟨"f", "F", 1⟩) "t" := by decide
  have h2 := (h "f").mpr h1
  revert h2
  decide

/-- Claim C7, amended: `follow` is idempotent on the audience set (re-follow
overwrites the edge in place), following one target does not change any other
target's audience, and follow-then-unfollow restores the audience provided
the follower was not already in the target's audience before the follow. -/
theorem C7_follow_graph_amended :
    (∀ (m : FollowerMap) (t : String) (e : FollowEdge),
      e.id ∈ audienceIds m t →
      audienceIds (followMsg m t e) t = audienceIds m t)
    ∧ (∀ (m : FollowerMap) (t : String) (e : FollowEdge),
        e.id ∉ audienceIds m t →
        audienceIds (unfollowMsg (followMsg m t e) t e.id) t = audienceIds m t)
    ∧ (∀ (m : FollowerMap) (t t' : String) (e : FollowEdge), t' ≠ t →
        audienceIds (followMsg m t e) t' = audienceIds m t') := by
  refine ⟨?_, ?_, ?_⟩
  · intro m t e h
    unfold audienceIds followMsg
    rw [mapGet_mapSet_self]
    exact audSet_map_id_of_mem (mapGetAudience m t) e h
  · intro m t e h
    unfold audienceIds unfollowMsg followMsg
    rw [mapGet_mapSet_self, mapGet_mapSet_self]
    rw [audSet_of_not_mem (mapGetAudience m t) e h]
    rw [audDelete_append (mapGetAudience m t) e h]
  · intro m t t' e hne
    unfold audienceIds followMsg
    rw [mapGet_mapSet_ne m t t' _ hne]

/-- Witness for the amended C7 at a concrete map where the follower is new. -/
theorem C7_witness :
    audienceIds (unfollowMsg (followMsg [("t", [⟨"g", "G", 1⟩])] "t" ⟨"f", "F", 2⟩)
        "t" "f") "t" =
      audienceIds [("t", [⟨"g", "G", 1⟩])] "t" :=
  C7_follow_graph_amended.2.1 [("t", [⟨"g", "G", 1⟩])] "t" ⟨"f", "F", 2⟩ (by decide)

/-- Claim C8 as stated is false on the code: the origin
`http://localhost.evil.com` is neither absent, nor the server's own origin,
nor a loopback host, nor an allow-list entry (the upgrade path consults no
allow-list), so the claim requires the upgrade to be rejected — but the
prefix test `origin.startsWith("http://localhost")` accepts it. -/
theorem C8_origin_counterexample :
    upgradeHandler "/ws".data (some "http://localhost.evil.com".data)
        "https://celebeaty.onrender.com".data = UpgradeResult.accepted ∧
      claimedOriginAllowed (some "http://localhost.evil.com".data)
        "https://celebeaty.onrender.com".data = false :=
  ⟨by decide, by decide⟩

theorem upgradeHandler_accepted_iff (url : List Char) (origin : Option (List Char))
    (selfOrigin : List Char) :
    upgradeHandler url origin selfOrigin = UpgradeResult.accepted ↔
      (startsWithL url "/ws".data = true ∧
        isWsOriginAllowed origin selfOrigin = true) := by
  unfold upgradeHandler
  cases hu : startsWithL url "/ws".data <;>
  cases ha : isWsOriginAllowed origin selfOrigin <;>
  simp [hu, ha]

theorem isWsOriginAllowed_iff (origin : Option (List Char)) (selfOrigin : List Char) :
    isWsOriginAllowed origin selfOrigin = true ↔
      (origin = none ∨ origin = some selfOrigin ∨
        (∃ o, origin = some o ∧
          (startsWithL o "http://localhost".data = true ∨
           startsWithL o "http://127.0.0.1".data = true))) := by
  cases origin with
  | none => simp [isWsOriginAllowed]
  | some o => simp [isWsOriginAllowed, or_assoc]

/-- Claim C8, amended: a WebSocket upgrade request under `/ws` is accepted
exactly when the `Origin` header is absent, equals the server's own origin,
or starts with the literal prefix `http://localhost` or `http://127.0.0.1`
(so an https loopback origin is rejected and any origin beginning with those
prefixes is accepted, whatever its host); every other origin is rejected by
destroying the socket with nothing sent back. -/
theorem C8_origin_check_amended :
    ∀ (url : List Char) (origin : Option (List Char)) (selfOrigin : List Char),
      startsWithL url "/ws".data = true →
      ((upgradeHandler url origin selfOrigin = UpgradeResult.accepted ↔
        (origin = none ∨ origin = some selfOrigin ∨
          (∃ o, origin = some o ∧
            (startsWithL o "http://localhost".data = true ∨
             startsWithL o "http://127.0.0.1".data = true)))) ∧
       (upgradeHandler url origin selfOrigin = UpgradeResult.accepted ∨
        upgradeHandler url origin selfOrigin = UpgradeResult.destroyed)) := by
  intro url origin selfOrigin hurl
  constructor
  · rw [upgradeHandler_accepted_iff, isWsOriginAllowed_iff]
    simp [hurl]
  · unfold upgradeHandler
    split_ifs <;> simp

/-- Witness for the amended C8 at a loopback origin with an explicit port. -/
theorem C8_witness :
    upgradeHandler "/ws".data (some "http://localhost:3000".data)
      "https://celebeaty.onrender.com".data = UpgradeResult.accepted :=
  ((C8_origin_check_amended "/ws".data (some "http://localhost:3000".data)
      "https://celebeaty.onrender.com".data (by decide)).1).mpr
    (Or.inr (Or.inr ⟨"http://localhost:3000".data, rfl, Or.inl (by decide)⟩))

/-- Claim C9: neither backend hub ever echoes a relayed message back to its
originating connection: every delivery target of the flat hub and of the
room-scoped relay is an open connection different from the sender. -/
theorem C9_no_echo :
    (∀ (clients : List Conn) (sender c : Conn),
      c ∈ hubRelayTargets clients sender → c ≠ sender ∧ c.ready = WS_OPEN)
    ∧ (∀ (rooms : Rooms) (msgType : String) (senderRoom : Option String) (sender c : Conn),
        c ∈ relayTargets rooms msgType senderRoom sender → c ≠ sender ∧ c.ready = WS_OPEN) := by
  constructor
  · intro clients sender c hc
    have hp := (List.mem_filter.mp hc).2
    simp only [Bool.and_eq_true, bne_iff_ne, beq_iff_eq, ne_eq] at hp
    exact ⟨hp.1, hp.2⟩
  · intro rooms msgType senderRoom sender c hc
    unfold relayTargets at hc
    split_ifs at hc with h
    · cases senderRoom with
      | none => simp at hc
      | some r =>
        simp only at hc
        have hp := (List.mem_filter.mp hc).2
        simp only [Bool.and_eq_true, bne_iff_ne, beq_iff_eq, ne_eq] at hp
        exact ⟨hp.2, hp.1⟩
    · simp at hc

/-- Witness for C9: a second open client is a valid target and differs from
the sender. -/
theorem C9_witness :
    (⟨2, 1⟩ : Conn) ≠ ⟨1, 1⟩ ∧ (⟨2, 1⟩ : Conn).ready = WS_OPEN :=
  C9_no_echo.1 [⟨1, 1⟩, ⟨2, 1⟩] ⟨1, 1⟩ ⟨2, 1⟩ (by decide)

end Celebeaty
